import Mathlib

/-!
Verification of the cortex-tutor persistence layer (`sqlite_store.py`),
its deterministic tool layer (`tools.py`) and the input validators
(`validators.py`).

The SQLite tables are embedded as Lean lists of row structures inside a
single `StoreState`; each store method becomes a pure function on that
state.  Timestamps (ISO-8601 UTC strings in the source, compared
lexicographically, which agrees with chronological order) are embedded as
integers.  SQL `REAL` scores are embedded as rationals.
-/

namespace CortexTutor

/-- A row of the `learning_progress` table.  The schema gives the pair
`(package_name, topic)` a UNIQUE constraint. -/
structure ProgressRow where
  id : Nat
  package_name : String
  topic : String
  completed : Bool
  score : ℚ
  last_accessed : Int
  total_time_seconds : Int
deriving Repr, DecidableEq

/-- The `LearningProgress` pydantic model: caller-supplied fields with the
model's defaults (`completed=False`, `score=0.0`, `total_time_seconds=0`). -/
structure LearningProgress where
  package_name : String
  topic : String
  completed : Bool := false
  score : ℚ := 0
  total_time_seconds : Int := 0
deriving Repr, DecidableEq

/-- A row of the append-only `quiz_results` table. -/
structure QuizRow where
  id : Nat
  package_name : String
  question : String
  user_answer : Option String
  correct : Bool
  timestamp : Int
deriving Repr, DecidableEq

/-- The singleton `student_profile` row. -/
structure StudentProfile where
  mastered_concepts : List String
  weak_concepts : List String
  learning_style : String
  last_session : Option Int
deriving Repr, DecidableEq

/-- The default student profile created lazily on first access. -/
def defaultProfile : StudentProfile :=
  { mastered_concepts := [], weak_concepts := [], learning_style := "reading"
    last_session := none }

/-- A row of the `lesson_cache` table (`package_name` is UNIQUE); the JSON
payload is embedded as an opaque string. -/
structure CacheRow where
  package_name : String
  content : String
  created_at : Int
  expires_at : Int
deriving Repr, DecidableEq

/-- The whole database file: one list per table plus the AUTOINCREMENT
counter for `learning_progress` (the only table whose row ids the code
reads back). -/
structure StoreState where
  progress : List ProgressRow
  nextId : Nat
  quiz : List QuizRow
  profile : StudentProfile
  cache : List CacheRow
deriving Repr, DecidableEq

/-- A freshly initialised database. -/
def emptyStore : StoreState :=
  { progress := [], nextId := 1, quiz := [], profile := defaultProfile, cache := [] }

/-- The UNIQUE key of a `learning_progress` row. -/
def progKey (r : ProgressRow) : String × String := (r.package_name, r.topic)

/-- The `WHERE package_name = ? AND topic = ?` row filter. -/
def keyMatch (pkg topic : String) (r : ProgressRow) : Bool :=
  r.package_name == pkg && r.topic == topic

/-- `UNIQUE(package_name, topic)`: the schema-level invariant that SQLite
enforces on `learning_progress`. -/
def ProgressInv (s : StoreState) : Prop :=
  (s.progress.map progKey).Nodup

/-- `UNIQUE(package_name)` on `lesson_cache`. -/
def CacheInv (s : StoreState) : Prop :=
  (s.cache.map CacheRow.package_name).Nodup

instance (s : StoreState) : Decidable (ProgressInv s) :=
  inferInstanceAs (Decidable ((s.progress.map progKey).Nodup))

instance (s : StoreState) : Decidable (CacheInv s) :=
  inferInstanceAs (Decidable ((s.cache.map CacheRow.package_name).Nodup))

/-- `SQLiteStore.get_progress`: exact-key lookup, `None` when absent. -/
def get_progress (s : StoreState) (pkg topic : String) : Option ProgressRow :=
  s.progress.find? (keyMatch pkg topic)

/-- The `ON CONFLICT ... DO UPDATE SET` clause of `upsert_progress`
applied to a conflicting row: `completed`, `score`, `last_accessed` and
`total_time_seconds` are replaced, `id`, `package_name`, `topic` kept. -/
def updRow (now : Int) (p : LearningProgress) (q : ProgressRow) : ProgressRow :=
  if keyMatch p.package_name p.topic q then
    { q with completed := p.completed, score := p.score, last_accessed := now
             total_time_seconds := p.total_time_seconds }
  else q

/-- `SQLiteStore.upsert_progress`: INSERT with
`ON CONFLICT(package_name, topic) DO UPDATE`, `last_accessed` set to the
current time unconditionally.  Returns the row id: the fresh AUTOINCREMENT
id on insert; on conflict-update `lastrowid` is 0 and the code re-queries
the existing row's id, which the update left unchanged. -/
def upsert_progress (s : StoreState) (now : Int) (p : LearningProgress) :
    Nat × StoreState :=
  match s.progress.find? (keyMatch p.package_name p.topic) with
  | some r => (r.id, { s with progress := s.progress.map (updRow now p) })
  | none =>
      (s.nextId,
       { s with
         progress := s.progress ++
           [{ id := s.nextId, package_name := p.package_name, topic := p.topic
              completed := p.completed, score := p.score, last_accessed := now
              total_time_seconds := p.total_time_seconds }]
         nextId := s.nextId + 1 })

/-- `SQLiteStore.mark_topic_completed`: builds a `LearningProgress` with
`completed=True` and the given score (all other fields at the model's
defaults) and upserts it. -/
def mark_topic_completed (s : StoreState) (now : Int) (pkg topic : String)
    (score : ℚ) : StoreState :=
  (upsert_progress s now
    { package_name := pkg, topic := topic, completed := true, score := score }).2

/-- Result shape of `SQLiteStore.get_completion_stats`. -/
structure CompletionStats where
  total : Nat
  completed : Nat
  avg_score : ℚ
  total_time_seconds : Int
deriving Repr, DecidableEq

/-- The `WHERE package_name = ?` row set that the stats query aggregates
over. -/
def packageRows (s : StoreState) (pkg : String) : List ProgressRow :=
  s.progress.filter (fun r => r.package_name == pkg)

/-- `SQLiteStore.get_completion_stats`: `COUNT(*)`, `SUM(CASE WHEN completed
THEN 1 ELSE 0 END)`, `AVG(score)` and `SUM(total_time_seconds)` over the
package's rows; SQL aggregates over zero rows yield NULL, which the code
maps to 0 via `or 0`. -/
def get_completion_stats (s : StoreState) (pkg : String) : CompletionStats :=
  { total := (packageRows s pkg).length
    completed := ((packageRows s pkg).filter (fun r => r.completed)).length
    avg_score := if (packageRows s pkg).length = 0 then 0
                 else ((packageRows s pkg).map (fun r => r.score)).sum /
                   ((packageRows s pkg).length : ℚ)
    total_time_seconds :=
      ((packageRows s pkg).map (fun r => r.total_time_seconds)).sum }

/-- `SQLiteStore.reset_progress`: `DELETE FROM learning_progress` with an
optional `WHERE package_name = ?`; Python's truthiness makes both `None`
and the empty string select the unfiltered DELETE.  Returns `rowcount`,
the number of rows deleted.  No other table is touched. -/
def reset_progress (s : StoreState) (pkg : Option String) : Nat × StoreState :=
  match pkg with
  | some p =>
      if p = "" then (s.progress.length, { s with progress := [] })
      else
        ((s.progress.filter (fun r => r.package_name == p)).length,
         { s with progress := s.progress.filter (fun r => !(r.package_name == p)) })
  | none => (s.progress.length, { s with progress := [] })

/-- `SQLiteStore.add_mastered_concept`: atomic read-modify-write; if the
concept is not yet mastered it is appended to `mastered_concepts` and
removed from `weak_concepts` (Python `list.remove` deletes the first
occurrence, as `List.erase` does), touching `last_session`; otherwise the
profile is left unchanged. -/
def add_mastered_concept (s : StoreState) (now : Int) (concept : String) :
    StoreState :=
  let p := s.profile
  if concept ∈ p.mastered_concepts then s
  else
    { s with profile :=
      { p with mastered_concepts := p.mastered_concepts ++ [concept]
               weak_concepts := p.weak_concepts.erase concept
               last_session := some now } }

/-- `SQLiteStore.add_weak_concept`: appends to `weak_concepts` only when
the concept is in neither set; a no-op when already weak or already
mastered (mastery is sticky). -/
def add_weak_concept (s : StoreState) (now : Int) (concept : String) :
    StoreState :=
  let p := s.profile
  if concept ∉ p.weak_concepts ∧ concept ∉ p.mastered_concepts then
    { s with profile :=
      { p with weak_concepts := p.weak_concepts ++ [concept]
               last_session := some now } }
  else s

/-- `SQLiteStore.cache_lesson`: expiry is now + ttl_hours (embedded in
seconds); INSERT with `ON CONFLICT(package_name) DO UPDATE` replacing
content, creation time and expiry. -/
def cache_lesson (s : StoreState) (now : Int) (pkg content : String)
    (ttl_hours : Int) : StoreState :=
  let expires := now + ttl_hours * 3600
  match s.cache.find? (fun e => e.package_name == pkg) with
  | some _ =>
      { s with cache := s.cache.map (fun e =>
          if e.package_name == pkg then
            { e with content := content, created_at := now, expires_at := expires }
          else e) }
  | none => { s with cache := s.cache ++ [⟨pkg, content, now, expires⟩] }

/-- `SQLiteStore.get_cached_lesson`:
`SELECT content ... WHERE package_name = ? AND expires_at > ?`. -/
def get_cached_lesson (s : StoreState) (now : Int) (pkg : String) :
    Option String :=
  (s.cache.find? (fun e => e.package_name == pkg && now < e.expires_at)).map
    (fun e => e.content)

/-- `SQLiteStore.clear_expired_cache`:
`DELETE FROM lesson_cache WHERE expires_at <= ?`, returning `rowcount`. -/
def clear_expired_cache (s : StoreState) (now : Int) : Nat × StoreState :=
  ((s.cache.filter (fun e => e.expires_at ≤ now)).length,
   { s with cache := s.cache.filter (fun e => !(e.expires_at ≤ now)) })

/-! ### Validators (`validators.py`)

The blocked patterns are Python regexes built from case-insensitive
literals, `\s*` / `\s+` whitespace repetition and `.*` (any character
except newline).  They are embedded as sequences of `RElem` elements and
matched by a small executable matcher. -/

/-- ASCII whitespace, the characters matched by `\s` and stripped by
`str.strip` on the ASCII inputs at issue. -/
def isSpaceChar (c : Char) : Bool :=
  c = ' ' || c = '\t' || c = '\n' || c = '\r' || c = Char.ofNat 11 || c = Char.ofNat 12

/-- One element of a blocked-pattern regex. -/
inductive RElem where
  | lit : Char → RElem
  | ws : RElem
  | wsStar : RElem
  | anyStar : RElem
deriving Repr, DecidableEq

/-- The suffixes of `ds` reachable by consuming zero or more leading
whitespace characters: the remainders `\s*` can leave. -/
def wsSuffixes : List Char → List (List Char)
  | [] => [[]]
  | d :: ds => (d :: ds) :: (if isSpaceChar d then wsSuffixes ds else [])

/-- The suffixes of `ds` reachable by consuming zero or more leading
non-newline characters: the remainders `.*` can leave (Python `.` without
DOTALL never crosses a newline). -/
def dotSuffixes : List Char → List (List Char)
  | [] => [[]]
  | d :: ds => (d :: ds) :: (if d == '\n' then [] else dotSuffixes ds)

/-- Does some prefix of `ds` match the element sequence `ps`?  Literals
compare case-insensitively (`re.IGNORECASE`). -/
def matchSeq : List RElem → List Char → Bool
  | [], _ => true
  | RElem.lit c :: ps, ds =>
      match ds with
      | [] => false
      | d :: ds' => (d.toLower == c.toLower) && matchSeq ps ds'
  | RElem.ws :: ps, ds =>
      match ds with
      | [] => false
      | d :: ds' => isSpaceChar d && matchSeq ps ds'
  | RElem.wsStar :: ps, ds => (wsSuffixes ds).any (fun ds' => matchSeq ps ds')
  | RElem.anyStar :: ps, ds => (dotSuffixes ds).any (fun ds' => matchSeq ps ds')

/-- `re.search`: the pattern may match starting at any position. -/
def searchFrom : List RElem → List Char → Bool
  | ps, [] => matchSeq ps []
  | ps, d :: ds => matchSeq ps (d :: ds) || searchFrom ps ds

/-- `re.search(pattern, s, re.IGNORECASE)` as a Bool. -/
def reSearch (ps : List RElem) (s : String) : Bool :=
  searchFrom ps s.toList

/-- A literal run of pattern characters. -/
def lits (s : String) : List RElem :=
  s.toList.map RElem.lit

/-- `BLOCKED_PATTERNS` from `validators.py`, in source order. -/
def blockedPatterns : List (List RElem) :=
  [ lits "rm" ++ [RElem.ws, RElem.wsStar] ++ lits "-rf",
    lits "rm" ++ [RElem.ws, RElem.wsStar] ++ lits "-r" ++
      [RElem.ws, RElem.wsStar] ++ lits "/",
    lits "mkfs.",
    lits "dd" ++ [RElem.ws, RElem.wsStar] ++ lits "if=",
    lits ":" ++ [RElem.wsStar] ++ lits "()" ++ [RElem.wsStar] ++ lits "\x7b",
    lits ">" ++ [RElem.wsStar] ++ lits "/dev/sd",
    lits "chmod" ++ [RElem.ws, RElem.wsStar] ++ lits "-R" ++
      [RElem.ws, RElem.wsStar] ++ lits "777",
    lits "curl" ++ [RElem.anyStar] ++ lits "|" ++ [RElem.wsStar] ++ lits "sh",
    lits "wget" ++ [RElem.anyStar] ++ lits "|" ++ [RElem.wsStar] ++ lits "sh",
    lits "eval" ++ [RElem.wsStar] ++ lits "(",
    lits "exec" ++ [RElem.wsStar] ++ lits "(",
    lits "__import__",
    lits "subprocess",
    lits "os.system",
    lits ";" ++ [RElem.wsStar] ++ lits "rm" ++ [RElem.ws, RElem.wsStar],
    lits "&&" ++ [RElem.wsStar] ++ lits "rm" ++ [RElem.ws, RElem.wsStar],
    lits "|" ++ [RElem.wsStar] ++ lits "rm" ++ [RElem.ws, RElem.wsStar] ]

/-- Python `str.strip()`: remove leading and trailing whitespace. -/
def pyStrip (s : String) : String :=
  String.mk (((s.toList.dropWhile isSpaceChar).reverse.dropWhile isSpaceChar).reverse)

/-- `MAX_PACKAGE_NAME_LENGTH` from `validators.py`. -/
def MAX_PACKAGE_NAME_LENGTH : Nat := 100

/-- An ASCII alphanumeric character, `[a-zA-Z0-9]`. -/
def isAlnum (c : Char) : Bool :=
  ('a' ≤ c && c ≤ 'z') || ('A' ≤ c && c ≤ 'Z') || ('0' ≤ c && c ≤ '9')

/-- A character of the class `[a-zA-Z0-9._-]`. -/
def validPackageChar (c : Char) : Bool :=
  isAlnum c || c = '.' || c = '_' || c = '-'

/-- `VALID_PACKAGE_PATTERN.match`: `^[a-zA-Z0-9][a-zA-Z0-9._-]*$`. -/
def validPackageFormat (s : String) : Bool :=
  match s.toList with
  | [] => false
  | c :: cs => isAlnum c && cs.all validPackageChar

/-- `validators.validate_package_name`: empty check on the raw input, then
length, blocked-pattern and format checks on the stripped input, in source
order. -/
def validate_package_name (package_name : String) : Bool × Option String :=
  if package_name = "" || pyStrip package_name = "" then
    (false, some "Package name cannot be empty")
  else
    let pn := pyStrip package_name
    if MAX_PACKAGE_NAME_LENGTH < pn.length then
      (false, some "Package name too long (max 100 characters)")
    else if blockedPatterns.any (fun p => reSearch p pn) then
      (false, some "Package name contains blocked pattern")
    else if !(validPackageFormat pn) then
      (false, some ("Package name must start with alphanumeric and contain " ++
        "only letters, numbers, dots, hyphens, and underscores"))
    else (true, none)

/-! ### Deterministic tool layer (`tools.py`)

A Python call into SQLite may raise; a fallible underlying operation is
embedded as an `Except String` value standing for "either the store's
answer or the exception it raised".  The tool methods' `try/except`
blocks then become matches on that value. -/

/-- Result dictionary of `ProgressTrackerTool._update_progress`. -/
structure UpdateResult where
  success : Bool
  error : Option String := none
  row_id : Option Nat := none
  total_time_seconds : Option Int := none
deriving Repr, DecidableEq

/-- `ProgressTrackerTool._update_progress`: requires truthy package and
topic; reads the existing row, adds the reported time increment to the
existing total (0 when absent), falls back to the existing row's
`completed` / `score` when those arguments are `None`, and upserts the
merged record. -/
def update_progress (s : StoreState) (now : Int)
    (package_name topic : Option String) (score : Option ℚ)
    (time_seconds : Option Int) (completed : Option Bool) :
    UpdateResult × StoreState :=
  match package_name, topic with
  | some pkg, some tp =>
      if pkg = "" || tp = "" then
        ({ success := false, error := some "package_name and topic required" }, s)
      else
        let existing := get_progress s pkg tp
        let total_time :=
          (match existing with
           | some r => r.total_time_seconds
           | none => 0) + (time_seconds.getD 0)
        let final_completed :=
          match completed with
          | some c => c
          | none => match existing with
                    | some r => r.completed
                    | none => false
        let final_score :=
          match score with
          | some sc => sc
          | none => match existing with
                    | some r => r.score
                    | none => 0
        let res := upsert_progress s now
          { package_name := pkg, topic := tp, completed := final_completed
            score := final_score, total_time_seconds := total_time }
        ({ success := true, row_id := some res.1
           total_time_seconds := some total_time }, res.2)
  | _, _ =>
      ({ success := false, error := some "package_name and topic required" }, s)

/-- The action names accepted by `ProgressTrackerTool._run`. -/
def trackerActionNames : List String :=
  ["get_progress", "get_all_progress", "mark_completed", "update_progress",
   "get_stats", "get_profile", "update_profile", "add_mastered", "add_weak",
   "reset", "get_packages"]

/-- Result dictionary of `ProgressTrackerTool._run`, reduced to the fields
every branch carries. -/
structure TrackerResult where
  success : Bool
  error : Option String := none
deriving Repr, DecidableEq

/-- `ProgressTrackerTool._run`: unknown actions are answered with an error
dictionary; a known action's handler is run inside `try/except Exception`,
whose `except` branch returns `{"success": False, "error": str(e)}` --
it does not re-raise.  `dispatch` is the outcome of the selected handler:
`Except.error e` stands for the handler raising exception `e` (e.g. a
storage failure). -/
def progressTrackerRun (action : String)
    (dispatch : Except String TrackerResult) : Except String TrackerResult :=
  if action ∉ trackerActionNames then
    Except.ok { success := false, error := some ("Unknown action: " ++ action) }
  else
    match dispatch with
    | Except.ok r => Except.ok r
    | Except.error e => Except.ok { success := false, error := some e }

/-- Result dictionary of `LessonLoaderTool._run`. -/
structure LoaderResult where
  success : Bool
  cache_hit : Bool
  lesson : Option String
  reason : Option String := none
  error : Option String := none
deriving Repr, DecidableEq

/-- `LessonLoaderTool._run`: on `force_fresh` returns a fixed miss; else
queries the cache inside `try/except Exception` -- a raised storage error
`e` is caught and turned into the returned dictionary
`{"success": False, "cache_hit": False, "lesson": None, "error": str(e)}`.
`storeGet` is the outcome of `store.get_cached_lesson`; a `some` payload
is taken as truthy (the Python code tests the returned dict's
truthiness, which holds for the non-empty payloads at issue). -/
def lessonLoaderRun (storeGet : Except String (Option String))
    (force_fresh : Bool) : Except String LoaderResult :=
  if force_fresh then
    Except.ok { success := true, cache_hit := false, lesson := none
                reason := some "Force fresh requested" }
  else
    match storeGet with
    | Except.ok (some cached) =>
        Except.ok { success := true, cache_hit := true, lesson := some cached }
    | Except.ok none =>
        Except.ok { success := true, cache_hit := false, lesson := none
                    reason := some "No valid cache found" }
    | Except.error e =>
        Except.ok { success := false, cache_hit := false, lesson := none
                    error := some e }

/-- A sequence of single-concept profile mutations. -/
inductive ProfileOp where
  | addMastered : Int → String → ProfileOp
  | addWeak : Int → String → ProfileOp
deriving Repr, DecidableEq

/-- Run one profile mutation. -/
def applyProfileOp (s : StoreState) : ProfileOp → StoreState
  | ProfileOp.addMastered now c => add_mastered_concept s now c
  | ProfileOp.addWeak now c => add_weak_concept s now c

/-- Run a sequence of profile mutations. -/
def applyProfileOps (s : StoreState) (ops : List ProfileOp) : StoreState :=
  ops.foldl applyProfileOp s

/-- The §3 profile invariant together with the no-duplicates property of
the weak list that the guarded appends maintain: no concept is in both
sets, and `weak_concepts` holds no repeats. -/
def ProfileInv (p : StudentProfile) : Prop :=
  (∀ c ∈ p.weak_concepts, c ∉ p.mastered_concepts) ∧ p.weak_concepts.Nodup

/-! ### Helper lemmas about the progress store -/

theorem keyMatch_iff {pkg tp : String} {r : ProgressRow} :
    keyMatch pkg tp r = true ↔ r.package_name = pkg ∧ r.topic = tp := by
  simp [keyMatch]

theorem keyMatch_updRow (now : Int) (p : LearningProgress) (pkg tp : String)
    (q : ProgressRow) : keyMatch pkg tp (updRow now p q) = keyMatch pkg tp q := by
  unfold updRow
  split <;> rfl

theorem progKey_updRow (now : Int) (p : LearningProgress) (q : ProgressRow) :
    progKey (updRow now p q) = progKey q := by
  unfold updRow
  split <;> rfl

theorem find?_append_of_none {α : Type} {f : α → Bool} {l1 l2 : List α}
    (h : l1.find? f = none) : (l1 ++ l2).find? f = l2.find? f := by
  induction l1 with
  | nil => rfl
  | cons a l ih =>
      rw [List.find?_cons] at h
      rw [List.cons_append, List.find?_cons]
      cases hfa : f a with
      | true => simp [hfa] at h
      | false =>
          simp only [hfa] at h ⊢
          exact ih h

theorem find?_map_of_pred_eq {α : Type} {f : α → Bool} {g : α → α}
    (hg : ∀ a, f (g a) = f a) (l : List α) :
    (l.map g).find? f = (l.find? f).map g := by
  induction l with
  | nil => rfl
  | cons a l ih =>
      simp only [List.map_cons, List.find?_cons, hg a]
      cases hfa : f a with
      | true => rfl
      | false => exact ih

/-- Reading back the touched row just after `upsert_progress`: its id is
the returned id, its key the record's key, and its mutable columns exactly
the record's fields with `last_accessed` set to the write time. -/
theorem get_progress_upsert (s : StoreState) (now : Int) (p : LearningProgress) :
    get_progress (upsert_progress s now p).2 p.package_name p.topic =
      some { id := (upsert_progress s now p).1, package_name := p.package_name
             topic := p.topic, completed := p.completed, score := p.score
             last_accessed := now, total_time_seconds := p.total_time_seconds } := by
  unfold get_progress upsert_progress
  cases hf : s.progress.find? (keyMatch p.package_name p.topic) with
  | none =>
      rw [find?_append_of_none hf]
      have hk : keyMatch p.package_name p.topic
          { id := s.nextId, package_name := p.package_name, topic := p.topic
            completed := p.completed, score := p.score, last_accessed := now
            total_time_seconds := p.total_time_seconds : ProgressRow } = true := by
        simp [keyMatch]
      rw [List.find?_cons_of_pos _ hk]
  | some r =>
      rw [find?_map_of_pred_eq (keyMatch_updRow now p p.package_name p.topic), hf]
      have hk := List.find?_some hf
      rcases keyMatch_iff.mp hk with ⟨h1, h2⟩
      show some (updRow now p r) = _
      have : updRow now p r =
          { id := r.id, package_name := p.package_name, topic := p.topic
            completed := p.completed, score := p.score, last_accessed := now
            total_time_seconds := p.total_time_seconds } := by
        unfold updRow
        rw [hk]
        simp [h1, h2]
      rw [this]

/-- `upsert_progress` preserves the `UNIQUE(package_name, topic)`
invariant. -/
theorem upsert_progress_inv (s : StoreState) (now : Int) (p : LearningProgress)
    (h : ProgressInv s) : ProgressInv (upsert_progress s now p).2 := by
  unfold ProgressInv upsert_progress
  cases hf : s.progress.find? (keyMatch p.package_name p.topic) with
  | none =>
      simp only [List.map_append, List.map_cons, List.map_nil]
      rw [List.nodup_append]
      refine ⟨h, List.nodup_singleton _, ?_⟩
      intro k hk hk'
      simp only [List.mem_singleton] at hk'
      rcases List.mem_map.mp hk with ⟨r, hr, hkey⟩
      have := List.find?_eq_none.mp hf r hr
      apply this
      rw [keyMatch_iff]
      have : progKey r = (p.package_name, p.topic) := by rw [hkey, hk']; rfl
      exact ⟨congrArg Prod.fst this, congrArg Prod.snd this⟩
  | some r =>
      have : (s.progress.map (updRow now p)).map progKey = s.progress.map progKey := by
        rw [List.map_map]
        exact List.map_congr_left (fun a _ => progKey_updRow now p a)
      rw [this]
      exact h

/-- Under the unique-key invariant, a successful lookup means exactly one
row carries the key. -/
theorem countP_keyMatch_one {l : List ProgressRow} {pkg tp : String}
    {r : ProgressRow} (hN : (l.map progKey).Nodup)
    (hf : l.find? (keyMatch pkg tp) = some r) :
    l.countP (keyMatch pkg tp) = 1 := by
  induction l with
  | nil => simp at hf
  | cons q l ih =>
      rw [List.map_cons, List.nodup_cons] at hN
      rw [List.find?_cons] at hf
      cases hq : keyMatch pkg tp q with
      | true =>
          rw [List.countP_cons_of_pos _ _ hq]
          have hzero : l.countP (keyMatch pkg tp) = 0 := by
            rw [List.countP_eq_zero]
            intro a ha hka
            rcases keyMatch_iff.mp hka with ⟨ha1, ha2⟩
            rcases keyMatch_iff.mp hq with ⟨hq1, hq2⟩
            apply hN.1
            apply List.mem_map.mpr
            refine ⟨a, ha, ?_⟩
            unfold progKey
            rw [ha1, ha2, hq1, hq2]
          rw [hzero]
      | false =>
          rw [List.countP_cons_of_neg _ _ (by simp [hq])]
          simp only [hq] at hf
          exact ih hN.2 hf

/-- When the key is already present, `upsert_progress` reports the id of
the row it found (the code's re-query after `lastrowid == 0`). -/
theorem upsert_fst_of_find (s : StoreState) (now : Int) (p : LearningProgress)
    {r : ProgressRow}
    (h : s.progress.find? (keyMatch p.package_name p.topic) = some r) :
    (upsert_progress s now p).1 = r.id := by
  unfold upsert_progress
  rw [h]

/-! ### Claim C1 -/

/-- C1 counterexample: a `("docker", "basics")` row is created with
`total_time_seconds = 100`; after `mark_topic_completed` the row's
total-time field reads back as 0, not 100 — the convenience upsert
overwrites the total-time column with the record default instead of
leaving it unchanged. -/
theorem mark_completed_resets_total_time_counterexample :
    (get_progress
        (upsert_progress emptyStore 0
          { package_name := "docker", topic := "basics", completed := false
            score := 0, total_time_seconds := 100 }).2
        "docker" "basics").map ProgressRow.total_time_seconds = some 100
    ∧ (get_progress
        (mark_topic_completed
          (upsert_progress emptyStore 0
            { package_name := "docker", topic := "basics", completed := false
              score := 0, total_time_seconds := 100 }).2
          1 "docker" "basics" (9/10))
        "docker" "basics").map ProgressRow.total_time_seconds = some 0 := by
  decide

/-- C1 (amended): `mark_topic_completed` upserts the row with
`completed = true` and the given score, but resets the row's total-time
field to 0 (the `LearningProgress` default), overwriting any previously
accumulated total time. -/
theorem mark_completed_forces_fields (s : StoreState) (now : Int)
    (pkg topic : String) (score : ℚ) :
    ∃ i, get_progress (mark_topic_completed s now pkg topic score) pkg topic =
      some { id := i, package_name := pkg, topic := topic, completed := true
             score := score, last_accessed := now, total_time_seconds := 0 } := by
  exact ⟨(upsert_progress s now
            { package_name := pkg, topic := topic, completed := true
              score := score }).1,
         get_progress_upsert s now
           { package_name := pkg, topic := topic, completed := true
             score := score }⟩

/-! ### Claim C3 -/

/-- C3: upserting the same `(package, topic)` key twice leaves exactly one
row for that key, whose mutable fields are the second call's values, and
both calls return the same row id (the conflict-update call resolves the
existing row's id). -/
theorem upsert_twice_single_row (s : StoreState) (now1 now2 : Int)
    (p1 p2 : LearningProgress) (hInv : ProgressInv s)
    (hpkg : p1.package_name = p2.package_name) (htp : p1.topic = p2.topic) :
    (upsert_progress (upsert_progress s now1 p1).2 now2 p2).2.progress.countP
        (keyMatch p2.package_name p2.topic) = 1
    ∧ (upsert_progress (upsert_progress s now1 p1).2 now2 p2).1 =
        (upsert_progress s now1 p1).1
    ∧ get_progress (upsert_progress (upsert_progress s now1 p1).2 now2 p2).2
        p2.package_name p2.topic =
      some { id := (upsert_progress s now1 p1).1, package_name := p2.package_name
             topic := p2.topic, completed := p2.completed, score := p2.score
             last_accessed := now2, total_time_seconds := p2.total_time_seconds } := by
  have h1 := get_progress_upsert s now1 p1
  have hfind : (upsert_progress s now1 p1).2.progress.find?
      (keyMatch p2.package_name p2.topic) =
      some { id := (upsert_progress s now1 p1).1, package_name := p1.package_name
             topic := p1.topic, completed := p1.completed, score := p1.score
             last_accessed := now1, total_time_seconds := p1.total_time_seconds } := by
    rw [← hpkg, ← htp]
    exact h1
  have hid : (upsert_progress (upsert_progress s now1 p1).2 now2 p2).1 =
      (upsert_progress s now1 p1).1 :=
    upsert_fst_of_find (upsert_progress s now1 p1).2 now2 p2 hfind
  have h2 := get_progress_upsert (upsert_progress s now1 p1).2 now2 p2
  have hInv2 : ProgressInv (upsert_progress (upsert_progress s now1 p1).2 now2 p2).2 :=
    upsert_progress_inv _ now2 p2 (upsert_progress_inv s now1 p1 hInv)
  refine ⟨?_, hid, ?_⟩
  · exact countP_keyMatch_one hInv2 (by rw [hid] at h2; exact h2)
  · rw [hid] at h2
    exact h2

/-- C3 witness: the double-upsert property at a concrete pair of records
on the fresh store. -/
theorem upsert_twice_single_row_witness :
    ProgressInv emptyStore
    ∧ ((upsert_progress
          (upsert_progress emptyStore 0
            { package_name := "docker", topic := "basics", completed := false
              score := 1/2, total_time_seconds := 5 }).2
          1
          { package_name := "docker", topic := "basics", completed := true
            score := 9/10, total_time_seconds := 7 }).2.progress.countP
            (keyMatch "docker" "basics") = 1
       ∧ (upsert_progress
            (upsert_progress emptyStore 0
              { package_name := "docker", topic := "basics", completed := false
                score := 1/2, total_time_seconds := 5 }).2
            1
            { package_name := "docker", topic := "basics", completed := true
              score := 9/10, total_time_seconds := 7 }).1 =
          (upsert_progress emptyStore 0
            { package_name := "docker", topic := "basics", completed := false
              score := 1/2, total_time_seconds := 5 }).1
       ∧ get_progress
           (upsert_progress
             (upsert_progress emptyStore 0
               { package_name := "docker", topic := "basics", completed := false
                 score := 1/2, total_time_seconds := 5 }).2
             1
             { package_name := "docker", topic := "basics", completed := true
               score := 9/10, total_time_seconds := 7 }).2
           "docker" "basics" =
         some { id := (upsert_progress emptyStore 0
                 { package_name := "docker", topic := "basics", completed := false
                   score := 1/2, total_time_seconds := 5 }).1
                package_name := "docker", topic := "basics", completed := true
                score := 9/10, last_accessed := 1, total_time_seconds := 7 }) :=
  ⟨by decide,
   upsert_twice_single_row emptyStore 0 1
     { package_name := "docker", topic := "basics", completed := false
       score := 1/2, total_time_seconds := 5 }
     { package_name := "docker", topic := "basics", completed := true
       score := 9/10, total_time_seconds := 7 }
     (by decide) rfl rfl⟩

/-! ### Claim C4 -/

/-- C4: the generic partial-update path merges with the existing row:
`completed` and `score` fall back to the stored values (`false` / `0` when
no row existed) when not supplied, and the stored total time becomes the
prior total plus the reported increment. -/
theorem update_progress_merges (s : StoreState) (now : Int) (pkg tp : String)
    (score : Option ℚ) (time_seconds : Option Int) (completed : Option Bool)
    (hpkg : pkg ≠ "") (htp : tp ≠ "") :
    ∃ i, get_progress
        (update_progress s now (some pkg) (some tp) score time_seconds
          completed).2 pkg tp =
      some { id := i
             package_name := pkg
             topic := tp
             completed :=
               match completed with
               | some c => c
               | none =>
                   match get_progress s pkg tp with
                   | some r => r.completed
                   | none => false
             score :=
               match score with
               | some sc => sc
               | none =>
                   match get_progress s pkg tp with
                   | some r => r.score
                   | none => 0
             last_accessed := now
             total_time_seconds :=
               (match get_progress s pkg tp with
                | some r => r.total_time_seconds
                | none => 0) + time_seconds.getD 0 } := by
  simp only [update_progress]
  rw [if_neg (by simp [hpkg, htp])]
  exact ⟨_, get_progress_upsert s now _⟩

/-- C4 witness: updating an existing `("docker", "basics")` row (score 1/2,
30 seconds) with only a 12-second increment and `completed := true` keeps
the score and accumulates the time. -/
theorem update_progress_merges_witness :
    ("docker" : String) ≠ "" ∧ ("basics" : String) ≠ ""
    ∧ ∃ i, get_progress
        (update_progress
          (upsert_progress emptyStore 0
            { package_name := "docker", topic := "basics", completed := false
              score := 1/2, total_time_seconds := 30 }).2
          5 (some "docker") (some "basics") none (some 12) (some true)).2
        "docker" "basics" =
      some { id := i, package_name := "docker", topic := "basics"
             completed := true, score := 1/2, last_accessed := 5
             total_time_seconds := 42 } :=
  ⟨by decide, by decide,
   update_progress_merges
     (upsert_progress emptyStore 0
       { package_name := "docker", topic := "basics", completed := false
         score := 1/2, total_time_seconds := 30 }).2
     5 "docker" "basics" none (some 12) (some true) (by decide) (by decide)⟩

/-! ### Claim C8 -/

/-- C8: stats over a package with no rows are all zero (no
division-by-zero), and the concrete docker scenario — `("docker","basics")`
completed with score 9/10, `("docker","advanced")` not completed with
score 1/2 — yields `total = 2`, `completed = 1`, `avg_score = 7/10`
(exactly, hence within 1e-9) and `total_time_seconds = 0`. -/
theorem stats_division_safety_and_scenario :
    (∀ (s : StoreState) (pkg : String),
       (∀ r ∈ s.progress, r.package_name ≠ pkg) →
       get_completion_stats s pkg =
         { total := 0, completed := 0, avg_score := 0, total_time_seconds := 0 })
    ∧ get_completion_stats
        (upsert_progress
          (upsert_progress emptyStore 0
            { package_name := "docker", topic := "basics", completed := true
              score := 9/10, total_time_seconds := 0 }).2
          1
          { package_name := "docker", topic := "advanced", completed := false
            score := 1/2, total_time_seconds := 0 }).2
        "docker" =
      { total := 2, completed := 1, avg_score := 7/10, total_time_seconds := 0 } := by
  constructor
  · intro s pkg h
    have hrows : packageRows s pkg = [] := by
      unfold packageRows
      rw [List.filter_eq_nil_iff]
      intro r hr
      simpa using h r hr
    unfold get_completion_stats
    rw [hrows]
    rfl
  · have hrows : packageRows
        (upsert_progress
          (upsert_progress emptyStore 0
            { package_name := "docker", topic := "basics", completed := true
              score := 9/10, total_time_seconds := 0 }).2
          1
          { package_name := "docker", topic := "advanced", completed := false
            score := 1/2, total_time_seconds := 0 }).2
        "docker" =
      [{ id := 1, package_name := "docker", topic := "basics", completed := true
         score := 9/10, last_accessed := 0, total_time_seconds := 0 },
       { id := 2, package_name := "docker", topic := "advanced", completed := false
         score := 1/2, last_accessed := 1, total_time_seconds := 0 }] := rfl
    unfold get_completion_stats
    rw [hrows]
    simp only [CompletionStats.mk.injEq, List.length_cons, List.length_nil,
      List.filter, List.map_cons, List.map_nil, List.sum_cons, List.sum_nil]
    norm_num

/-- C8 witness: the zero-rows part applied to the fresh store. -/
theorem stats_division_safety_witness :
    (∀ r ∈ emptyStore.progress, r.package_name ≠ "docker")
    ∧ get_completion_stats emptyStore "docker" =
      { total := 0, completed := 0, avg_score := 0, total_time_seconds := 0 } :=
  ⟨by decide,
   stats_division_safety_and_scenario.1 emptyStore "docker" (by decide)⟩

/-! ### Claim C9 -/

/-- C9: scoped reset deletes exactly the named package's progress rows,
returns their count, leaves other packages' progress rows and all quiz
rows untouched; unscoped reset deletes every progress row, returns the
total count, and still leaves quiz rows untouched. -/
theorem reset_progress_scoping (s : StoreState) (A : String) (hA : A ≠ "") :
    (reset_progress s (some A)).1 =
      s.progress.countP (fun r => r.package_name == A)
    ∧ (∀ r ∈ s.progress, r.package_name = A →
        r ∉ (reset_progress s (some A)).2.progress)
    ∧ (∀ r ∈ s.progress, r.package_name ≠ A →
        r ∈ (reset_progress s (some A)).2.progress)
    ∧ (reset_progress s (some A)).2.quiz = s.quiz
    ∧ (reset_progress s none).1 = s.progress.length
    ∧ (reset_progress s none).2.progress = []
    ∧ (reset_progress s none).2.quiz = s.quiz := by
  have hsome : reset_progress s (some A) =
      ((s.progress.filter (fun r => r.package_name == A)).length,
       { s with progress := s.progress.filter (fun r => !(r.package_name == A)) }) := by
    simp only [reset_progress]
    rw [if_neg hA]
  have hnone : reset_progress s none = (s.progress.length, { s with progress := [] }) := rfl
  rw [hsome, hnone]
  refine ⟨(List.countP_eq_length_filter _ _).symm, ?_, ?_, rfl, rfl, rfl, rfl⟩
  · intro r _ hrA hmem
    rcases List.mem_filter.mp hmem with ⟨-, hpred⟩
    simp [hrA] at hpred
  · intro r hr hrA
    exact List.mem_filter.mpr ⟨hr, by simp [hrA]⟩

/-- C9 witness: a store with one "a" row, one "b" row and one quiz row. -/
theorem reset_progress_scoping_witness :
    ("a" : String) ≠ ""
    ∧ (reset_progress
        { progress :=
            [{ id := 1, package_name := "a", topic := "t1", completed := false
               score := 0, last_accessed := 0, total_time_seconds := 0 },
             { id := 2, package_name := "b", topic := "t2", completed := false
               score := 0, last_accessed := 0, total_time_seconds := 0 }]
          nextId := 3
          quiz := [{ id := 1, package_name := "a", question := "q"
                     user_answer := none, correct := true, timestamp := 0 }]
          profile := defaultProfile, cache := [] } (some "a")).1 =
      List.countP (fun r : ProgressRow => r.package_name == "a")
        [{ id := 1, package_name := "a", topic := "t1", completed := false
           score := 0, last_accessed := 0, total_time_seconds := 0 },
         { id := 2, package_name := "b", topic := "t2", completed := false
           score := 0, last_accessed := 0, total_time_seconds := 0 }] :=
  ⟨by decide,
   (reset_progress_scoping
     { progress :=
         [{ id := 1, package_name := "a", topic := "t1", completed := false
            score := 0, last_accessed := 0, total_time_seconds := 0 },
          { id := 2, package_name := "b", topic := "t2", completed := false
            score := 0, last_accessed := 0, total_time_seconds := 0 }]
       nextId := 3
       quiz := [{ id := 1, package_name := "a", question := "q"
                  user_answer := none, correct := true, timestamp := 0 }]
       profile := defaultProfile, cache := [] } "a" (by decide)).1⟩

/-! ### Claim C5 -/

theorem add_mastered_profileInv (s : StoreState) (now : Int) (c : String)
    (h : ProfileInv s.profile) :
    ProfileInv (add_mastered_concept s now c).profile := by
  unfold add_mastered_concept
  dsimp only
  split
  · exact h
  · rename_i hc
    refine ⟨?_, h.2.erase c⟩
    intro d hd hmem
    rcases (h.2.mem_erase_iff).mp hd with ⟨hne, hdw⟩
    rcases List.mem_append.mp hmem with hm | hm
    · exact h.1 d hdw hm
    · exact hne (List.mem_singleton.mp hm)

theorem add_weak_profileInv (s : StoreState) (now : Int) (c : String)
    (h : ProfileInv s.profile) :
    ProfileInv (add_weak_concept s now c).profile := by
  unfold add_weak_concept
  dsimp only
  split
  · rename_i hc
    constructor
    · intro d hd hm
      rcases List.mem_append.mp hd with hw | hw
      · exact h.1 d hw hm
      · rw [List.mem_singleton.mp hw] at hm
        exact hc.2 hm
    · rw [List.nodup_append]
      exact ⟨h.2, List.nodup_singleton c,
        fun d hdw hdc => hc.1 (by rwa [List.mem_singleton.mp hdc] at hdw)⟩
  · exact h

theorem profileInv_applyOps (ops : List ProfileOp) (s : StoreState)
    (h : ProfileInv s.profile) :
    ProfileInv (applyProfileOps s ops).profile := by
  induction ops generalizing s with
  | nil => exact h
  | cons op ops ih =>
      cases op with
      | addMastered now c => exact ih _ (add_mastered_profileInv s now c h)
      | addWeak now c => exact ih _ (add_weak_profileInv s now c h)

theorem emptyStore_profileInv : ProfileInv emptyStore.profile :=
  ⟨fun c hc => by simp [emptyStore, defaultProfile] at hc,
   by simp [emptyStore, defaultProfile]⟩

theorem mem_mastered_add_mastered (s : StoreState) (now : Int) (c : String) :
    c ∈ (add_mastered_concept s now c).profile.mastered_concepts := by
  unfold add_mastered_concept
  dsimp only
  split
  · assumption
  · exact List.mem_append.mpr (Or.inr (List.mem_singleton.mpr rfl))

theorem not_mem_weak_add_mastered (s : StoreState) (now : Int) (c : String)
    (h : ProfileInv s.profile) :
    c ∉ (add_mastered_concept s now c).profile.weak_concepts := by
  unfold add_mastered_concept
  dsimp only
  split
  · rename_i hc
    exact fun hw => h.1 c hw hc
  · intro hw
    exact ((h.2.mem_erase_iff).mp hw).1 rfl

theorem add_weak_noop_of_mastered (s : StoreState) (now : Int) (c : String)
    (h : c ∈ s.profile.mastered_concepts) : add_weak_concept s now c = s := by
  unfold add_weak_concept
  rw [if_neg]
  intro hcond
  exact hcond.2 h

/-- C5: over any sequence of single-concept profile mutations starting
from the default profile, no concept is ever in both the mastered and the
weak set; `add_mastered_concept` then `add_weak_concept` on the same
concept leaves it mastered and not weak (mastery sticky);
`add_mastered_concept` removes the concept from the weak set; and
`add_weak_concept` is a no-op whenever the concept is already mastered. -/
theorem profile_concept_exclusivity :
    (∀ (ops : List ProfileOp) (c : String),
       c ∈ (applyProfileOps emptyStore ops).profile.weak_concepts →
       c ∉ (applyProfileOps emptyStore ops).profile.mastered_concepts)
    ∧ (∀ (ops : List ProfileOp) (now1 now2 : Int) (x : String),
       x ∈ (add_weak_concept
              (add_mastered_concept (applyProfileOps emptyStore ops) now1 x)
              now2 x).profile.mastered_concepts
       ∧ x ∉ (add_weak_concept
              (add_mastered_concept (applyProfileOps emptyStore ops) now1 x)
              now2 x).profile.weak_concepts)
    ∧ (∀ (ops : List ProfileOp) (now : Int) (c : String),
       c ∉ (add_mastered_concept (applyProfileOps emptyStore ops) now
              c).profile.weak_concepts)
    ∧ (∀ (s : StoreState) (now : Int) (c : String),
       c ∈ s.profile.mastered_concepts → add_weak_concept s now c = s) := by
  refine ⟨?_, ?_, ?_, add_weak_noop_of_mastered⟩
  · intro ops c hc
    exact (profileInv_applyOps ops emptyStore emptyStore_profileInv).1 c hc
  · intro ops now1 now2 x
    have hInv := profileInv_applyOps ops emptyStore emptyStore_profileInv
    have hmem := mem_mastered_add_mastered (applyProfileOps emptyStore ops) now1 x
    have hnoop := add_weak_noop_of_mastered
      (add_mastered_concept (applyProfileOps emptyStore ops) now1 x) now2 x hmem
    rw [hnoop]
    exact ⟨hmem,
      not_mem_weak_add_mastered (applyProfileOps emptyStore ops) now1 x hInv⟩
  · intro ops now c
    exact not_mem_weak_add_mastered (applyProfileOps emptyStore ops) now c
      (profileInv_applyOps ops emptyStore emptyStore_profileInv)

/-- C5 witness: after adding "y" as weak it is not mastered, and adding
"x" as weak is a no-op on a store whose profile already masters "x". -/
theorem profile_concept_exclusivity_witness :
    ("y" ∈ (applyProfileOps emptyStore
        [ProfileOp.addWeak 0 "y"]).profile.weak_concepts
     ∧ "y" ∉ (applyProfileOps emptyStore
        [ProfileOp.addWeak 0 "y"]).profile.mastered_concepts)
    ∧ ("x" ∈ ({ progress := [], nextId := 1, quiz := []
                profile := { mastered_concepts := ["x"], weak_concepts := []
                             learning_style := "reading", last_session := none }
                cache := [] } : StoreState).profile.mastered_concepts
       ∧ add_weak_concept
           { progress := [], nextId := 1, quiz := []
             profile := { mastered_concepts := ["x"], weak_concepts := []
                          learning_style := "reading", last_session := none }
             cache := [] } 7 "x" =
         { progress := [], nextId := 1, quiz := []
           profile := { mastered_concepts := ["x"], weak_concepts := []
                        learning_style := "reading", last_session := none }
           cache := [] }) :=
  ⟨⟨by decide,
    profile_concept_exclusivity.1 [ProfileOp.addWeak 0 "y"] "y" (by decide)⟩,
   ⟨by decide,
    profile_concept_exclusivity.2.2.2
      { progress := [], nextId := 1, quiz := []
        profile := { mastered_concepts := ["x"], weak_concepts := []
                     learning_style := "reading", last_session := none }
        cache := [] } 7 "x" (by decide)⟩⟩

/-! ### Claims C6 and C7 -/

theorem find?_eq_some_of_unique {α : Type} {l : List α} {f : α → Bool} {e : α}
    (he : e ∈ l) (hfe : f e = true) (huniq : ∀ a ∈ l, f a = true → a = e) :
    l.find? f = some e := by
  induction l with
  | nil => simp at he
  | cons a l ih =>
      rw [List.find?_cons]
      cases hfa : f a with
      | true => rw [huniq a (List.mem_cons_self a l) hfa]
      | false =>
          rcases List.mem_cons.mp he with rfl | he'
          · rw [hfe] at hfa
            exact absurd hfa (by simp)
          · exact ih he' (fun b hb => huniq b (List.mem_cons_of_mem a hb))

/-- C6: a cache read returns content only when the entry's expiry is
strictly in the future: writing with `ttl_hours = 0` and reading back at
the same instant misses; an expired-but-present row for the package reads
as absent; and any successful read comes from an unexpired stored row
with that content. -/
theorem cache_ttl_boundary (s : StoreState) (now : Int) (pkg content : String)
    (hInv : CacheInv s) :
    get_cached_lesson (cache_lesson s now pkg content 0) now pkg = none
    ∧ (∀ e ∈ s.cache, e.package_name = pkg → e.expires_at ≤ now →
        get_cached_lesson s now pkg = none)
    ∧ (∀ c, get_cached_lesson s now pkg = some c →
        ∃ e ∈ s.cache, e.package_name = pkg ∧ now < e.expires_at ∧
          e.content = c) := by
  refine ⟨?_, ?_, ?_⟩
  · unfold cache_lesson
    cases hf : s.cache.find? (fun e => e.package_name == pkg) with
    | some e0 =>
        unfold get_cached_lesson
        rw [List.find?_eq_none.mpr]
        rfl
        intro a ha
        rcases List.mem_map.mp ha with ⟨e, he, rfl⟩
        by_cases hpe : e.package_name == pkg
        · simp only [hpe, if_pos]
          simp [show ¬(now < now + 0 * 3600) by omega]
        · simp only [hpe, if_neg]
          simp only [Bool.not_eq_true] at hpe
          simp [hpe]
    | none =>
        unfold get_cached_lesson
        rw [List.find?_eq_none.mpr]
        rfl
        intro a ha
        rcases List.mem_append.mp ha with ha' | ha'
        · have := List.find?_eq_none.mp hf a ha'
          simp only [Bool.not_eq_true] at this
          simp [this]
        · rw [List.mem_singleton.mp ha']
          simp [show ¬(now < now + 0 * 3600) by omega]
  · intro e he hpkg hexp
    unfold get_cached_lesson
    rw [List.find?_eq_none.mpr]
    rfl
    intro a ha hpred
    simp only [Bool.and_eq_true, beq_iff_eq, decide_eq_true_eq] at hpred
    have : a = e := List.inj_on_of_nodup_map hInv ha he (by rw [hpred.1, hpkg])
    rw [this] at hpred
    omega
  · intro c hc
    unfold get_cached_lesson at hc
    cases hf : s.cache.find? (fun e => e.package_name == pkg && now < e.expires_at) with
    | none => rw [hf] at hc; simp at hc
    | some e =>
        rw [hf] at hc
        have hpred := List.find?_some hf
        simp only [Bool.and_eq_true, beq_iff_eq, decide_eq_true_eq] at hpred
        exact ⟨e, List.mem_of_find?_eq_some hf, hpred.1, hpred.2,
          by simpa using hc⟩

/-- C6 witness: one stale "nginx" entry (expired at 5, read at 10). -/
theorem cache_ttl_boundary_witness :
    CacheInv { progress := [], nextId := 1, quiz := [], profile := defaultProfile
               cache := [{ package_name := "nginx", content := "old"
                           created_at := 0, expires_at := 5 }] }
    ∧ get_cached_lesson
        (cache_lesson
          { progress := [], nextId := 1, quiz := [], profile := defaultProfile
            cache := [{ package_name := "nginx", content := "old"
                        created_at := 0, expires_at := 5 }] }
          10 "nginx" "new" 0) 10 "nginx" = none :=
  ⟨by decide,
   (cache_ttl_boundary
     { progress := [], nextId := 1, quiz := [], profile := defaultProfile
       cache := [{ package_name := "nginx", content := "old"
                   created_at := 0, expires_at := 5 }] }
     10 "nginx" "new" (by decide)).1⟩

/-- C7: the sweep returns exactly the number of entries whose expiry is at
or before the current time; afterwards every swept package reads as
absent while every unexpired entry is still readable with its content. -/
theorem clear_expired_cache_semantics (s : StoreState) (now : Int)
    (hInv : CacheInv s) :
    (clear_expired_cache s now).1 =
      s.cache.countP (fun e => e.expires_at ≤ now)
    ∧ (∀ e ∈ s.cache, e.expires_at ≤ now →
        get_cached_lesson (clear_expired_cache s now).2 now e.package_name = none)
    ∧ (∀ e ∈ s.cache, now < e.expires_at →
        get_cached_lesson (clear_expired_cache s now).2 now e.package_name =
          some e.content) := by
  refine ⟨(List.countP_eq_length_filter _ _).symm, ?_, ?_⟩
  · intro e he hexp
    unfold get_cached_lesson clear_expired_cache
    rw [List.find?_eq_none.mpr]
    rfl
    intro a ha hpred
    rcases List.mem_filter.mp ha with ⟨haC, hasurv⟩
    simp only [Bool.and_eq_true, beq_iff_eq, decide_eq_true_eq] at hpred
    have : a = e := List.inj_on_of_nodup_map hInv haC he (by rw [hpred.1])
    rw [this] at hasurv
    simp only [Bool.not_eq_true', decide_eq_false_iff_not] at hasurv
    omega
  · intro e he hlive
    unfold get_cached_lesson clear_expired_cache
    have hfind : (s.cache.filter (fun x => !(x.expires_at ≤ now))).find?
        (fun x => x.package_name == e.package_name && now < x.expires_at) =
        some e := by
      apply find?_eq_some_of_unique
      · exact List.mem_filter.mpr ⟨he, by simp; omega⟩
      · simp [hlive]
      · intro a ha hpred
        rcases List.mem_filter.mp ha with ⟨haC, -⟩
        simp only [Bool.and_eq_true, beq_iff_eq, decide_eq_true_eq] at hpred
        exact List.inj_on_of_nodup_map hInv haC he (by rw [hpred.1])
    rw [hfind]
    rfl

/-- C7 witness: two expired entries and one live entry; the sweep reports
2 and the live "git" entry still reads back. -/
theorem clear_expired_cache_semantics_witness :
    CacheInv { progress := [], nextId := 1, quiz := [], profile := defaultProfile
               cache := [{ package_name := "docker", content := "a"
                           created_at := 0, expires_at := 3 },
                         { package_name := "nginx", content := "b"
                           created_at := 0, expires_at := 10 },
                         { package_name := "git", content := "c"
                           created_at := 0, expires_at := 99 }] }
    ∧ (clear_expired_cache
        { progress := [], nextId := 1, quiz := [], profile := defaultProfile
          cache := [{ package_name := "docker", content := "a"
                      created_at := 0, expires_at := 3 },
                    { package_name := "nginx", content := "b"
                      created_at := 0, expires_at := 10 },
                    { package_name := "git", content := "c"
                      created_at := 0, expires_at := 99 }] } 10).1 =
      List.countP (fun e : CacheRow => e.expires_at ≤ 10)
        [{ package_name := "docker", content := "a"
           created_at := 0, expires_at := 3 },
         { package_name := "nginx", content := "b"
           created_at := 0, expires_at := 10 },
         { package_name := "git", content := "c"
           created_at := 0, expires_at := 99 }] :=
  ⟨by decide,
   (clear_expired_cache_semantics
     { progress := [], nextId := 1, quiz := [], profile := defaultProfile
       cache := [{ package_name := "docker", content := "a"
                   created_at := 0, expires_at := 3 },
                 { package_name := "nginx", content := "b"
                   created_at := 0, expires_at := 10 },
                 { package_name := "git", content := "c"
                   created_at := 0, expires_at := 99 }] } 10 (by decide)).1⟩

/-! ### Claim C2 -/

/-- C2 counterexample: a storage error raised inside a known
progress-tracking action or a cache read is caught by the tool layer's
`try/except` and answered with a normal `success=False` result
dictionary; it is not re-raised to the caller. -/
theorem storage_error_caught_counterexample :
    progressTrackerRun "get_stats" (Except.error "database is locked") =
      Except.ok { success := false, error := some "database is locked" }
    ∧ progressTrackerRun "get_stats" (Except.error "database is locked") ≠
        Except.error "database is locked"
    ∧ lessonLoaderRun (Except.error "disk I/O error") false =
        Except.ok { success := false, cache_hit := false, lesson := none
                    error := some "disk I/O error" }
    ∧ lessonLoaderRun (Except.error "disk I/O error") false ≠
        Except.error "disk I/O error" := by
  refine ⟨rfl, fun h => ?_, rfl, fun h => ?_⟩ <;> exact Except.noConfusion h

/-- C2 (amended): when the underlying storage operation raises during a
known progress-tracking action or during a lesson-cache read, the tool
layer catches the exception and converts it into a normal
`success=False` return value carrying the error's message; the exception
does not propagate out of the tool layer. -/
theorem storage_error_converted (action e : String)
    (h : action ∈ trackerActionNames) :
    progressTrackerRun action (Except.error e) =
      Except.ok { success := false, error := some e }
    ∧ lessonLoaderRun (Except.error e) false =
        Except.ok { success := false, cache_hit := false, lesson := none
                    error := some e } := by
  constructor
  · unfold progressTrackerRun
    rw [if_neg (by simpa using h)]
  · rfl

/-- C2 witness: the amended conversion at the `get_progress` action. -/
theorem storage_error_converted_witness :
    "get_progress" ∈ trackerActionNames
    ∧ (progressTrackerRun "get_progress" (Except.error "boom") =
         Except.ok { success := false, error := some "boom" }
       ∧ lessonLoaderRun (Except.error "boom") false =
           Except.ok { success := false, cache_hit := false, lesson := none
                       error := some "boom" }) :=
  ⟨by decide, storage_error_converted "get_progress" "boom" (by decide)⟩

/-! ### Claim C10 -/

/-- C10 counterexample: the input `" docker "` does not match
`^[a-zA-Z0-9][a-zA-Z0-9._-]*$` (it starts with a space), yet
`validate_package_name` accepts it, because the validator strips
whitespace before applying the format check — so the claim's "rejects any
input not matching the pattern" fails as stated. -/
theorem validate_package_name_counterexample :
    validate_package_name " docker " = (true, none)
    ∧ validPackageFormat " docker " = false := by
  decide

/-- C10 (amended): `validate_package_name` rejects `"rm -rf /"` with the
blocked-pattern message and `""` with the emptiness message; it rejects
any input whose whitespace-stripped form exceeds the 100-character
maximum, and any input whose whitespace-stripped form does not match
`^[a-zA-Z0-9][a-zA-Z0-9._-]*$`; and it accepts `"docker"`, `"node-js"`
and `"package.name"` with no error message. -/
theorem validate_package_name_amended :
    validate_package_name "rm -rf /" =
      (false, some "Package name contains blocked pattern")
    ∧ validate_package_name "" = (false, some "Package name cannot be empty")
    ∧ (∀ s : String, MAX_PACKAGE_NAME_LENGTH < (pyStrip s).length →
        (validate_package_name s).1 = false)
    ∧ (∀ s : String, validPackageFormat (pyStrip s) = false →
        (validate_package_name s).1 = false)
    ∧ validate_package_name "docker" = (true, none)
    ∧ validate_package_name "node-js" = (true, none)
    ∧ validate_package_name "package.name" = (true, none) := by
  refine ⟨by decide, by decide, ?_, ?_, by decide, by decide, by decide⟩
  · intro s hlen
    unfold validate_package_name
    split
    · rfl
    · rw [if_pos hlen]
  · intro s hfmt
    unfold validate_package_name
    split
    · rfl
    · dsimp only
      split
      · rfl
      · split
        · rfl
        · rw [if_pos (by simp [hfmt])]

/-- C10 witness: the two conditional rejections at concrete inputs — a
101-character name (over-length after stripping) and `"a b"` (fails the
format pattern after stripping). -/
theorem validate_package_name_amended_witness :
    (MAX_PACKAGE_NAME_LENGTH <
        (pyStrip (String.mk (List.replicate 101 'a'))).length
     ∧ (validate_package_name (String.mk (List.replicate 101 'a'))).1 = false)
    ∧ (validPackageFormat (pyStrip "a b") = false
       ∧ (validate_package_name "a b").1 = false) :=
  ⟨⟨by decide,
    validate_package_name_amended.2.2.1 (String.mk (List.replicate 101 'a'))
      (by decide)⟩,
   ⟨by decide, validate_package_name_amended.2.2.2.1 "a b" (by decide)⟩⟩

end CortexTutor
